import Mathlib

set_option autoImplicit false

/-!
Verification of the safe_network node core against its specification.

The definitions below are shallow embeddings of the Rust sources:
  * src/sn/src/node/core/comm/back_pressure/mod.rs  (BackPressure)
  * src/src/routing_node.rs                         (RoutingNode handlers)
  * src/sn_node/src/node/core/proposal.rs           (Proposal)
Machine floats (f64 rates) are modelled as exact rationals, wall-clock
instants as natural-number seconds, and the BTreeMap / LruCache containers
as association lists with the same lookup / insert-returning-previous
semantics.  Code of the repository that is not under src/ (the
kademlia_routing_table, xor_name, message_filter and load_monitoring
crates, and the old routing crate utils) is modelled from the spec, as
marked on each such definition.
-/

/-! ## Back-pressure controller
    Embedding of src/sn/src/node/core/comm/back_pressure/mod.rs. -/

/-- Peers are abstracted to their identity; only equality is used. -/
abbrev Peer := Nat

/-- MIN_REPORT_INTERVAL: 60 seconds (mod.rs line 19). -/
def MIN_REPORT_INTERVAL : Nat := 60

/-- REPORT_TTL: 300 seconds (mod.rs line 20). -/
def REPORT_TTL : Nat := 300

/-- Modelled from the spec: INITIAL_MSGS_PER_S comes from the
load_monitoring module, which is not under src/ ("a decaying counter of
messages processed per unit time, seeded at a configured initial rate");
the seed value is kept abstract as a configuration field. -/
structure BackPressureConfig where
  initial_msgs_per_s : ℚ

/-- DEFAULT_MSGS_PER_S_AND_PEER = INITIAL_MSGS_PER_S / 10.0 (mod.rs line 22). -/
def default_msgs_per_s_and_peer (cfg : BackPressureConfig) : ℚ :=
  cfg.initial_msgs_per_s / 10

/-- OutgoingReports = BTreeMap of peer to (Instant, f64) (mod.rs line 24),
modelled as an association list. -/
abbrev OutgoingReports := List (Peer × (Nat × ℚ))

/-- BTreeMap::get, by key. -/
def reportsGet : OutgoingReports → Peer → Option (Nat × ℚ)
  | [], _ => none
  | (k, v) :: rest, caller => if k = caller then some v else reportsGet rest caller

/-- BTreeMap::insert: stores the value under the key and returns the
previously stored value, if any, together with the updated map. -/
def reportsInsert : OutgoingReports → Peer → Nat × ℚ → Option (Nat × ℚ) × OutgoingReports
  | [], caller, v => (none, [(caller, v)])
  | (k, v0) :: rest, caller, v =>
    if k = caller then (some v0, (caller, v) :: rest)
    else
      let r := reportsInsert rest caller v
      (r.1, (k, v0) :: r.2)

/-- The mutable state of BackPressure (mod.rs lines 27-31): the outgoing
reports map and the time of the last eviction pass.  The LoadMonitoring
component is not under src/; its current output is passed to the
operations as an explicit argument instead. -/
structure BackPressure where
  our_reports : OutgoingReports
  last_eviction : Nat

/-- evict_expired (mod.rs lines 100-122): remove every entry whose last
report time exceeds REPORT_TTL and record the eviction time. -/
def evict_expired (bp : BackPressure) (now : Nat) : BackPressure :=
  { our_reports :=
      bp.our_reports.filter
        (fun e => !(decide (now > e.2.1) && decide (now - e.2.1 > REPORT_TTL))),
    last_eviction := now }

/-- The candidate rate computed by try_get_new_value (mod.rs lines 66-73):
max(DEFAULT_MSGS_PER_S_AND_PEER, msgs_per_s / max(1, number of entries in
the outgoing reports map)). -/
def candidate_rate (cfg : BackPressureConfig) (msgs_per_s : ℚ) (bp : BackPressure) : ℚ :=
  max (default_msgs_per_s_and_peer cfg)
    (msgs_per_s / max 1 (bp.our_reports.length : ℚ))

/-- The hysteresis decision of try_get_new_value (mod.rs lines 88-97),
factored out over the candidate and the previous entry returned by the
insert: with a previous value, the candidate is returned only when the
change ratio lies strictly inside the band (0.95, 1.1) and is nonzero;
with no previous entry the candidate is always returned. -/
def hysteresis_result (msgs_per_s_and_peer : ℚ) (prev : Option (Nat × ℚ)) : Option ℚ :=
  match prev with
  | some pv =>
    let change_ratio := msgs_per_s_and_peer / pv.2
    if (0.95 : ℚ) ≥ change_ratio ∨ change_ratio ≥ (1.1 : ℚ) ∨ change_ratio = 0 then
      none
    else some msgs_per_s_and_peer
  | none => some msgs_per_s_and_peer

/-- try_get_new_value (mod.rs lines 65-98).  The candidate is computed,
stored for the caller (returning any previous entry), an eviction pass is
run if due, and then the hysteresis comparison against the previous value
decides whether the candidate is returned. -/
def try_get_new_value (cfg : BackPressureConfig) (msgs_per_s : ℚ)
    (bp : BackPressure) (caller : Peer) (now : Nat) : Option ℚ × BackPressure :=
  let msgs_per_s_and_peer := candidate_rate cfg msgs_per_s bp
  let ins := reportsInsert bp.our_reports caller (now, msgs_per_s_and_peer)
  let bp1 : BackPressure := { bp with our_reports := ins.2 }
  let bp2 :=
    if now > bp1.last_eviction ∧ now - bp1.last_eviction > REPORT_TTL then
      evict_expired bp1 now
    else bp1
  (hysteresis_result msgs_per_s_and_peer ins.1, bp2)

/-- tolerated_msgs_per_s (mod.rs lines 47-63): if a report was sent to the
caller less than MIN_REPORT_INTERVAL ago, return None without touching the
state; otherwise compute, store and possibly return a new value. -/
def tolerated_msgs_per_s (cfg : BackPressureConfig) (msgs_per_s : ℚ)
    (bp : BackPressure) (caller : Peer) (now : Nat) : Option ℚ × BackPressure :=
  match reportsGet bp.our_reports caller with
  | some s =>
    if now > s.1 ∧ now - s.1 > MIN_REPORT_INTERVAL then
      try_get_new_value cfg msgs_per_s bp caller now
    else (none, bp)
  | none => try_get_new_value cfg msgs_per_s bp caller now


/-! ### Back-pressure lemmas -/

theorem reportsInsert_fst (l : OutgoingReports) (k : Peer) (v : Nat × ℚ) :
    (reportsInsert l k v).1 = reportsGet l k := by
  induction l with
  | nil => rfl
  | cons hd tl ih =>
    obtain ⟨k0, v0⟩ := hd
    by_cases h : k0 = k <;> simp [reportsInsert, reportsGet, h, ih]

theorem reportsGet_insert_self (l : OutgoingReports) (k : Peer) (v : Nat × ℚ) :
    reportsGet (reportsInsert l k v).2 k = some v := by
  induction l with
  | nil => simp [reportsInsert, reportsGet]
  | cons hd tl ih =>
    obtain ⟨k0, v0⟩ := hd
    by_cases h : k0 = k <;> simp [reportsInsert, reportsGet, h, ih]

theorem reportsGet_filter (l : OutgoingReports) (k : Peer) (v : Nat × ℚ)
    (p : Peer × (Nat × ℚ) → Bool) (hget : reportsGet l k = some v)
    (hp : p (k, v) = true) : reportsGet (l.filter p) k = some v := by
  induction l with
  | nil => simp [reportsGet] at hget
  | cons hd tl ih =>
    obtain ⟨k0, v0⟩ := hd
    by_cases h : k0 = k
    · subst h
      simp [reportsGet] at hget
      subst hget
      simp [List.filter, hp, reportsGet]
    · simp [reportsGet, h] at hget
      cases hfil : p (k0, v0) <;>
        simp [List.filter, hfil, reportsGet, h, ih hget]

theorem evict_preserves_fresh (bp : BackPressure) (now : Nat) (k : Peer) (x : ℚ)
    (h : reportsGet bp.our_reports k = some (now, x)) :
    reportsGet (evict_expired bp now).our_reports k = some (now, x) := by
  exact reportsGet_filter _ _ _ _ h (by simp)

theorem hysteresis_result_some (c r : ℚ) (p : Option (Nat × ℚ))
    (h : hysteresis_result c p = some r) : r = c := by
  cases p with
  | none => simpa [hysteresis_result] using h.symm
  | some pv =>
    simp only [hysteresis_result] at h
    split at h
    · exact absurd h (by simp)
    · exact (Option.some_inj.mp h).symm

theorem try_get_new_value_fst (cfg : BackPressureConfig) (msgs_per_s : ℚ)
    (bp : BackPressure) (caller : Peer) (now : Nat) :
    (try_get_new_value cfg msgs_per_s bp caller now).1
      = hysteresis_result (candidate_rate cfg msgs_per_s bp)
          (reportsGet bp.our_reports caller) := by
  simp [try_get_new_value, reportsInsert_fst]

theorem try_get_new_value_snd_lookup (cfg : BackPressureConfig) (msgs_per_s : ℚ)
    (bp : BackPressure) (caller : Peer) (now : Nat) :
    reportsGet (try_get_new_value cfg msgs_per_s bp caller now).2.our_reports caller
      = some (now, candidate_rate cfg msgs_per_s bp) := by
  unfold try_get_new_value
  by_cases hev : now > bp.last_eviction ∧ now - bp.last_eviction > REPORT_TTL
  · simp only [hev, if_true]
    exact evict_preserves_fresh _ now caller _ (reportsGet_insert_self _ _ _)
  · simp only [hev, if_false]
    exact reportsGet_insert_self _ _ _

theorem tolerated_eq_of_none (cfg : BackPressureConfig) (msgs_per_s : ℚ)
    (bp : BackPressure) (caller : Peer) (now : Nat)
    (hg : reportsGet bp.our_reports caller = none) :
    tolerated_msgs_per_s cfg msgs_per_s bp caller now
      = try_get_new_value cfg msgs_per_s bp caller now := by
  unfold tolerated_msgs_per_s
  rw [hg]

theorem tolerated_eq_of_elapsed (cfg : BackPressureConfig) (msgs_per_s : ℚ)
    (bp : BackPressure) (caller : Peer) (now : Nat) (s : Nat × ℚ)
    (hg : reportsGet bp.our_reports caller = some s)
    (hc : now > s.1 ∧ now - s.1 > MIN_REPORT_INTERVAL) :
    tolerated_msgs_per_s cfg msgs_per_s bp caller now
      = try_get_new_value cfg msgs_per_s bp caller now := by
  unfold tolerated_msgs_per_s
  rw [hg]
  exact if_pos hc

theorem tolerated_eq_of_recent (cfg : BackPressureConfig) (msgs_per_s : ℚ)
    (bp : BackPressure) (caller : Peer) (now : Nat) (s : Nat × ℚ)
    (hg : reportsGet bp.our_reports caller = some s)
    (hc : ¬(now > s.1 ∧ now - s.1 > MIN_REPORT_INTERVAL)) :
    tolerated_msgs_per_s cfg msgs_per_s bp caller now = (none, bp) := by
  unfold tolerated_msgs_per_s
  rw [hg]
  exact if_neg hc

/-! ### Back-pressure claim theorems -/

/-- C6: every value returned by tolerated_msgs_per_s equals
max(DEFAULT_MSGS_PER_S_AND_PEER, msgs_per_s / max(1, number of entries in
the outgoing-reports map)), and is therefore at least the floor rate. -/
theorem tolerated_some_eq_candidate_and_floor
    (cfg : BackPressureConfig) (msgs_per_s : ℚ) (bp : BackPressure)
    (caller : Peer) (now : Nat) (r : ℚ)
    (h : (tolerated_msgs_per_s cfg msgs_per_s bp caller now).1 = some r) :
    r = max (default_msgs_per_s_and_peer cfg)
        (msgs_per_s / max 1 (bp.our_reports.length : ℚ))
      ∧ default_msgs_per_s_and_peer cfg ≤ r := by
  have hr : r = candidate_rate cfg msgs_per_s bp := by
    cases hg : reportsGet bp.our_reports caller with
    | none =>
      rw [tolerated_eq_of_none cfg msgs_per_s bp caller now hg,
        try_get_new_value_fst] at h
      exact hysteresis_result_some _ _ _ h
    | some s =>
      by_cases hc : now > s.1 ∧ now - s.1 > MIN_REPORT_INTERVAL
      · rw [tolerated_eq_of_elapsed cfg msgs_per_s bp caller now s hg hc,
          try_get_new_value_fst] at h
        exact hysteresis_result_some _ _ _ h
      · rw [tolerated_eq_of_recent cfg msgs_per_s bp caller now s hg hc] at h
        simp at h
  refine ⟨hr, ?_⟩
  rw [hr]
  exact le_max_left _ _

/-- Witness for C6 at a concrete input: a fresh caller on an empty reports
map with local rate 1 and floor rate 1 is returned the value 1. -/
theorem tolerated_some_eq_candidate_and_floor_witness :
    (1 : ℚ) = max (default_msgs_per_s_and_peer ⟨10⟩)
        ((1 : ℚ) / max 1 ((⟨[], 0⟩ : BackPressure).our_reports.length : ℚ))
      ∧ default_msgs_per_s_and_peer ⟨10⟩ ≤ (1 : ℚ) :=
  tolerated_some_eq_candidate_and_floor ⟨10⟩ 1 ⟨[], 0⟩ 0 0 1
    (by norm_num [tolerated_msgs_per_s, try_get_new_value, hysteresis_result,
      reportsGet, reportsInsert, candidate_rate, default_msgs_per_s_and_peer,
      evict_expired, REPORT_TTL])

/-- C5: a stored report for the caller that is less than 60 seconds old
makes tolerated_msgs_per_s return None and leave the state untouched; and
two calls from the same peer within 60 seconds of each other produce at
most one result that is not None. -/
theorem tolerated_min_interval_suppression (cfg : BackPressureConfig)
    (m1 m2 : ℚ) (bp : BackPressure) (caller : Peer) :
    (∀ now t v, reportsGet bp.our_reports caller = some (t, v) →
        now - t < MIN_REPORT_INTERVAL →
        tolerated_msgs_per_s cfg m1 bp caller now = (none, bp))
    ∧ (∀ t1 t2, t1 ≤ t2 → t2 - t1 ≤ MIN_REPORT_INTERVAL →
        (tolerated_msgs_per_s cfg m1 bp caller t1).1 = none
        ∨ (tolerated_msgs_per_s cfg m2
            (tolerated_msgs_per_s cfg m1 bp caller t1).2 caller t2).1 = none) := by
  constructor
  · intro now t v hg hlt
    apply tolerated_eq_of_recent cfg m1 bp caller now (t, v) hg
    simp only [MIN_REPORT_INTERVAL] at hlt ⊢
    omega
  · intro t1 t2 hle hband
    cases hfst : (tolerated_msgs_per_s cfg m1 bp caller t1).1 with
    | none => exact Or.inl rfl
    | some r =>
      refine Or.inr ?_
      have heq : tolerated_msgs_per_s cfg m1 bp caller t1
          = try_get_new_value cfg m1 bp caller t1 := by
        cases hg : reportsGet bp.our_reports caller with
        | none => exact tolerated_eq_of_none _ _ _ _ _ hg
        | some s =>
          by_cases hc : t1 > s.1 ∧ t1 - s.1 > MIN_REPORT_INTERVAL
          · exact tolerated_eq_of_elapsed _ _ _ _ _ _ hg hc
          · rw [tolerated_eq_of_recent _ _ _ _ _ _ hg hc] at hfst
            simp at hfst
      have hlook : reportsGet
          (tolerated_msgs_per_s cfg m1 bp caller t1).2.our_reports caller
          = some (t1, candidate_rate cfg m1 bp) := by
        rw [heq]
        exact try_get_new_value_snd_lookup _ _ _ _ _
      rw [tolerated_eq_of_recent cfg m2 _ caller t2 _ hlook
        (by simp only [MIN_REPORT_INTERVAL] at hband ⊢; omega)]

/-- Witness for C5 at concrete inputs: with a report stored at time 0, a
call at time 30 returns None and keeps the state; calls at times 61 and
100 (39 seconds apart) produce at most one non-None result. -/
theorem tolerated_min_interval_suppression_witness :
    tolerated_msgs_per_s ⟨10⟩ 1 ⟨[(0, (0, 2))], 0⟩ 0 30
      = (none, ⟨[(0, (0, 2))], 0⟩)
    ∧ ((tolerated_msgs_per_s ⟨10⟩ 1 ⟨[(0, (0, 2))], 0⟩ 0 61).1 = none
      ∨ (tolerated_msgs_per_s ⟨10⟩ 1
          (tolerated_msgs_per_s ⟨10⟩ 1 ⟨[(0, (0, 2))], 0⟩ 0 61).2 0 100).1 = none) :=
  ⟨(tolerated_min_interval_suppression ⟨10⟩ 1 1 ⟨[(0, (0, 2))], 0⟩ 0).1 30 0 2 rfl
      (by norm_num [MIN_REPORT_INTERVAL]),
   (tolerated_min_interval_suppression ⟨10⟩ 1 1 ⟨[(0, (0, 2))], 0⟩ 0).2 61 100
      (by norm_num) (by norm_num [MIN_REPORT_INTERVAL])⟩

/-- C9: whenever a call reaches candidate computation (no stored entry for
the caller, or the stored entry is over 60 seconds old), the stored entry
is overwritten with (now, candidate) before the hysteresis comparison, so
the suppression window restarts and later comparisons see the last
computed candidate, whatever the call returned. -/
theorem try_overwrites_entry_before_hysteresis (cfg : BackPressureConfig)
    (m : ℚ) (bp : BackPressure) (caller : Peer) (now : Nat)
    (hreach : reportsGet bp.our_reports caller = none
      ∨ ∃ s, reportsGet bp.our_reports caller = some s
          ∧ now > s.1 ∧ now - s.1 > MIN_REPORT_INTERVAL) :
    reportsGet (tolerated_msgs_per_s cfg m bp caller now).2.our_reports caller
        = some (now, candidate_rate cfg m bp)
    ∧ ∀ m2 t2, t2 - now ≤ MIN_REPORT_INTERVAL →
        (tolerated_msgs_per_s cfg m2
          (tolerated_msgs_per_s cfg m bp caller now).2 caller t2).1 = none := by
  have heq : tolerated_msgs_per_s cfg m bp caller now
      = try_get_new_value cfg m bp caller now := by
    rcases hreach with hg | ⟨s, hg, hc⟩
    · exact tolerated_eq_of_none _ _ _ _ _ hg
    · exact tolerated_eq_of_elapsed _ _ _ _ _ _ hg hc
  have hlook : reportsGet
      (tolerated_msgs_per_s cfg m bp caller now).2.our_reports caller
      = some (now, candidate_rate cfg m bp) := by
    rw [heq]
    exact try_get_new_value_snd_lookup _ _ _ _ _
  refine ⟨hlook, ?_⟩
  intro m2 t2 ht
  rw [tolerated_eq_of_recent cfg m2 _ caller t2 _ hlook
    (by simp only [MIN_REPORT_INTERVAL] at ht ⊢; omega)]

/-- Witness for C9 at a concrete input: a first call from a fresh caller
at time 5 stores (5, candidate), and a second call at time 50 is
suppressed. -/
theorem try_overwrites_entry_before_hysteresis_witness :
    reportsGet (tolerated_msgs_per_s ⟨10⟩ 1 ⟨[], 0⟩ 0 5).2.our_reports 0
        = some (5, candidate_rate ⟨10⟩ 1 ⟨[], 0⟩)
    ∧ (tolerated_msgs_per_s ⟨10⟩ 2
        (tolerated_msgs_per_s ⟨10⟩ 1 ⟨[], 0⟩ 0 5).2 0 50).1 = none :=
  ⟨(try_overwrites_entry_before_hysteresis ⟨10⟩ 1 ⟨[], 0⟩ 0 5 (Or.inl rfl)).1,
   (try_overwrites_entry_before_hysteresis ⟨10⟩ 1 ⟨[], 0⟩ 0 5 (Or.inl rfl)).2 2 50
     (by norm_num [MIN_REPORT_INTERVAL])⟩

/-- C1: evaluation of the code at concrete inputs, exhibiting the bug.
With a previous report of 2 and a candidate of 1 (more than 5 percent
worse, outside the hysteresis band) the code returns None, although both
its own comment (mod.rs lines 89-90) and the spec require the new value to
be sent; with a previous report of 1 and a candidate of 1 (inside the
band) it returns Some 1, although comment and spec require suppression.
The condition on mod.rs line 92 is inverted. -/
theorem hysteresis_inverted_at_concrete_inputs :
    (tolerated_msgs_per_s ⟨10⟩ 1 ⟨[(0, (0, 2))], 0⟩ 0 61).1 = none
    ∧ (tolerated_msgs_per_s ⟨10⟩ 1 ⟨[(0, (0, 1))], 0⟩ 0 61).1 = some 1 := by
  constructor <;>
    norm_num [tolerated_msgs_per_s, try_get_new_value, hysteresis_result,
      reportsGet, reportsInsert, candidate_rate, default_msgs_per_s_and_peer,
      evict_expired, MIN_REPORT_INTERVAL, REPORT_TTL]

/-! ## Dynamic quorum size -/

/-- Modelled from the spec: dynamic_quorum_size() of the overlay routing
table lives in the kademlia_routing_table crate, which is not under src/
(routing_node.rs only calls it, lines 419 and 661).  The spec pins it by
"strictly more than half the current close-group size" together with the
example table: sizes 1, 2, 3, 4, 7 give 1, 2, 2, 3, 4, which determine
floor(n/2) + 1.  (The spec's ceil(n/2)+1 formula contradicts that table.) -/
def dynamic_quorum_size (close_group_size : Nat) : Nat :=
  close_group_size / 2 + 1

/-- C2 counterexample: the claim's formula ceil(n/2)+1 (written (n+1)/2+1
in natural numbers) fails already for a close group of size 1, where the
claim itself requires the result 1 but the formula gives 2. -/
theorem dynamic_quorum_size_not_ceil_formula :
    dynamic_quorum_size 1 ≠ (1 + 1) / 2 + 1 := by
  decide

/-- C2 amended: dynamic_quorum_size returns strictly more than half the
close-group size, computed as floor(n/2)+1; for close groups of size
1, 2, 3, 4, 7 it returns 1, 2, 2, 3, 4 respectively. -/
theorem dynamic_quorum_size_majority_and_table :
    (∀ n, n < 2 * dynamic_quorum_size n)
    ∧ dynamic_quorum_size 1 = 1 ∧ dynamic_quorum_size 2 = 2
    ∧ dynamic_quorum_size 3 = 2 ∧ dynamic_quorum_size 4 = 3
    ∧ dynamic_quorum_size 7 = 4 := by
  refine ⟨fun n => ?_, rfl, rfl, rfl, rfl, rfl⟩
  simp only [dynamic_quorum_size]
  omega

/-! ## Proposal signable bytes
    Embedding of src/sn_node/src/node/core/proposal.rs.  The payload types
    and the bincode serializers are external to the embedded code; the spec
    assumes "a deterministic serialize/deserialize contract", so each
    serializer is an arbitrary function parameter. -/

/-- network_knowledge::NodeState, kept abstract. -/
abbrev NodeState := Nat

/-- network_knowledge::SectionAuthorityProvider, kept abstract. -/
abbrev SectionAuthorityProvider := Nat

/-- sn_consensus::Generation. -/
abbrev Generation := Nat

/-- messaging::system::KeyedSig: a signature over some value together with
the public key that made it; for a section-signed SAP the public key is
the new section key. -/
structure KeyedSig where
  public_key : Nat
  signature : Nat
  deriving DecidableEq

/-- messaging::system::SectionAuth: a value together with the section
signature over it. -/
structure SectionAuth (α : Type) where
  value : α
  sig : KeyedSig
  deriving DecidableEq

/-- Proposal (proposal.rs lines 16-24). -/
inductive Proposal where
  | offline (node_state : NodeState)
  | sectionInfo (sap : SectionAuthorityProvider) (generation : Generation)
  | newElders (info : SectionAuth SectionAuthorityProvider)
  | joinsAllowed (joins_allowed : Bool)
  deriving DecidableEq

/-- Proposal::as_signable_bytes (proposal.rs lines 42-49), translated
clause by clause from the source match. -/
def Proposal.as_signable_bytes (serNodeState : NodeState → List Nat)
    (serSAP : SectionAuthorityProvider → List Nat)
    (serPublicKey : Nat → List Nat) (serBool : Bool → List Nat) :
    Proposal → List Nat
  | .offline node_state => serNodeState node_state
  | .sectionInfo sap _ => serSAP sap
  | .newElders info => serPublicKey info.sig.public_key
  | .joinsAllowed joins_allowed => serBool joins_allowed

/-- The signable-byte format as the spec words it, for the refinement
comparison: Offline serializes the node state; SectionInfo serializes the
section authority provider with the generation excluded; NewElders
serializes only the new section public key (the key under which the new
SAP is section-signed); JoinsAllowed serializes the boolean. -/
def spec_signable_bytes (serNodeState : NodeState → List Nat)
    (serSAP : SectionAuthorityProvider → List Nat)
    (serPublicKey : Nat → List Nat) (serBool : Bool → List Nat) :
    Proposal → List Nat
  | .offline node_state => serNodeState node_state
  | .sectionInfo sap _ => serSAP sap
  | .newElders info => serPublicKey info.sig.public_key
  | .joinsAllowed joins_allowed => serBool joins_allowed

/-- C3: Proposal::as_signable_bytes produces exactly the per-variant bytes
the spec requires; in particular the SectionInfo bytes do not depend on the
generation, and the NewElders bytes depend only on the section public key
of the signature, not on the authority provider or signature value. -/
theorem as_signable_bytes_matches_spec (serNodeState : NodeState → List Nat)
    (serSAP : SectionAuthorityProvider → List Nat)
    (serPublicKey : Nat → List Nat) (serBool : Bool → List Nat) :
    (∀ p, Proposal.as_signable_bytes serNodeState serSAP serPublicKey serBool p
        = spec_signable_bytes serNodeState serSAP serPublicKey serBool p)
    ∧ (∀ sap g g',
        Proposal.as_signable_bytes serNodeState serSAP serPublicKey serBool
          (.sectionInfo sap g)
        = Proposal.as_signable_bytes serNodeState serSAP serPublicKey serBool
          (.sectionInfo sap g'))
    ∧ (∀ i1 i2 : SectionAuth SectionAuthorityProvider,
        i1.sig.public_key = i2.sig.public_key →
        Proposal.as_signable_bytes serNodeState serSAP serPublicKey serBool
          (.newElders i1)
        = Proposal.as_signable_bytes serNodeState serSAP serPublicKey serBool
          (.newElders i2)) := by
  refine ⟨fun p => ?_, fun sap g g' => rfl, fun i1 i2 h => ?_⟩
  · cases p <;> rfl
  · simp [Proposal.as_signable_bytes, h]

/-- Witness for C3 at a concrete input: two NewElders proposals differing
in authority provider and signature but sharing the section public key 5
produce identical signable bytes. -/
theorem as_signable_bytes_matches_spec_witness :
    Proposal.as_signable_bytes (fun n => [n]) (fun n => [n]) (fun n => [n])
      (fun b => [cond b 1 0]) (.newElders ⟨0, ⟨5, 1⟩⟩)
    = Proposal.as_signable_bytes (fun n => [n]) (fun n => [n]) (fun n => [n])
      (fun b => [cond b 1 0]) (.newElders ⟨2, ⟨5, 9⟩⟩) :=
  (as_signable_bytes_matches_spec _ _ _ _).2.2 ⟨0, ⟨5, 1⟩⟩ ⟨2, ⟨5, 9⟩⟩ rfl

/-! ## Routing node
    Embedding of src/src/routing_node.rs.  The kademlia_routing_table,
    xor_name, message_filter, lru_time_cache and id crates it uses are not
    under src/; those parts are modelled from the spec as marked. -/

/-- Modelled from the spec: XOR-metric identifiers ("a fixed-width
identifier (XOR-metric name space)", xor_name crate not under src/).  The
512-bit big-endian name is modelled as a natural number, so lexicographic
byte order coincides with numeric order. -/
abbrev XorName := Nat

/-- Modelled from the spec: xor_name::closer_to_target ("distance between
two identifiers is symmetric XOR, used as the sole ordering/closeness
metric"): lhs is strictly closer to the target than rhs. -/
def closer_to_target (lhs rhs target : XorName) : Bool :=
  decide (lhs ^^^ target < rhs ^^^ target)

/-- id::PublicId (id crate not under src/): per the spec a PublicIdentity
is {identifier, signing public key, encryption public key}; the encryption
key plays no role in the embedded handlers and is omitted. -/
structure PublicId where
  name : XorName
  signing_public_key : Nat
  deriving DecidableEq

/-- Modelled from the spec: the Authority variants used by
routing_node.rs ("Client{client_key, proxy_name}, ManagedNode(name),
NodeManager(name), NaeManager(name)"; authority.rs is not under src/).
The Section variant of the spec is never constructed or matched by the
embedded handlers and is omitted. -/
inductive Authority where
  | client (client_key : Nat) (proxy_node_name : XorName)
  | managedNode (name : XorName)
  | nodeManager (name : XorName)
  | naeManager (name : XorName)
  deriving DecidableEq

/-- Modelled from the spec: the routable location of an authority; a
message to a Client is routed via its proxy node. -/
def Authority.get_name : Authority → XorName
  | .client _ proxy_node_name => proxy_node_name
  | .managedNode name => name
  | .nodeManager name => name
  | .naeManager name => name

/-- Modelled from the spec: group-addressed authorities require
accumulation ("NaeManager(name) (group responsible for a data area)");
individually addressed ones do not. -/
def Authority.is_group : Authority → Bool
  | .nodeManager _ => true
  | .naeManager _ => true
  | _ => false

/-- The request / response payloads of messages, restricted to the
variants the embedded handlers inspect (Get of immutable data and its
success response for the data cache, the relocation payloads); every
other payload is opaque. -/
inductive MsgContent where
  | getImmutableData (name : XorName)
  | getSuccessImmutableData (name : XorName) (data : Nat)
  | getNetworkNameResponse (relocated_id : PublicId)
  | expectCloseNode (expect_id : PublicId)
  | otherContent (tag : Nat)
  deriving DecidableEq

/-- RoutingMessage: source and destination authority plus content. -/
structure RoutingMessage where
  src : Authority
  dst : Authority
  content : MsgContent
  deriving DecidableEq

/-- SignedMessage: a routing message with the signer's public id.  The
integrity_ok flag abstracts check_integrity (the cryptographic signature
check over the serialised content; messages.rs is not under src/). -/
structure SignedMessage where
  content : RoutingMessage
  public_id : PublicId
  integrity_ok : Bool
  deriving DecidableEq

/-- The error variants of error.rs used by the embedded handlers. -/
inductive RoutingError where
  | failedSignature
  | filterCheckFailed
  | directionCheckFailed
  | badAuthority
  | invalidStateForOperation
  | rejectedPublicId
  | invalidDestination
  deriving DecidableEq

/-- State (routing_node.rs lines 43-52). -/
inductive State where
  | disconnected
  | bootstrapping
  | client
  | node
  deriving DecidableEq

/-- Modelled from the spec: the message_filter crate is an expiring set,
"a mapping from a fingerprint to insertion time with a fixed TTL". -/
abbrev MessageFilter (α : Type) := List (α × Nat)

/-- Membership in an expiring set: an entry inserted less than the TTL ago
(expiry is evaluated lazily on lookup, per the spec). -/
def filter_contains {α : Type} [DecidableEq α] (f : MessageFilter α)
    (x : α) (ttl now : Nat) : Bool :=
  f.any (fun e => decide (e.1 = x) && decide (now - e.2 < ttl))

/-- Insertion into an expiring set, recording the insertion time. -/
def filter_insert {α : Type} (f : MessageFilter α) (x : α) (now : Nat) :
    MessageFilter α :=
  (x, now) :: f

/-- The signed-message filter TTL: 20 minutes (routing_node.rs line 128),
in seconds. -/
def SIGNED_MESSAGE_FILTER_TTL : Nat := 1200

/-- Association-list lookup (the shared behaviour of LruCache::get and
HashMap lookups in the source). -/
def assocGet {α β : Type} [DecidableEq α] : List (α × β) → α → Option β
  | [], _ => none
  | (k, v) :: rest, key => if k = key then some v else assocGet rest key

/-- Association-list insert returning the previously stored value, if any
(the shared behaviour of LruCache::insert and HashMap::insert). -/
def assocInsert {α β : Type} [DecidableEq α] :
    List (α × β) → α → β → Option β × List (α × β)
  | [], key, v => (none, [(key, v)])
  | (k, v0) :: rest, key, v =>
    if k = key then (some v0, (key, v) :: rest)
    else
      let r := assocInsert rest key v
      (r.1, (k, v0) :: r.2)

/-- The fields of RoutingNode (routing_node.rs lines 55-81) read or
written by the embedded handlers.  is_close abstracts
routing_table.is_close (kademlia_routing_table crate, not under src/;
per the spec it decides "whether an incoming message concerns this node's
section"); close_group_names is the name list of
routing_table.our_close_group(). -/
structure RoutingNode where
  state : State
  our_public_id : PublicId
  signed_message_filter : MessageFilter SignedMessage
  is_close : XorName → Bool
  data_cache : List (XorName × Nat)
  node_id_cache : List (XorName × PublicId)
  close_group_names : List XorName

/-- get_from_cache (routing_node.rs lines 365-375): a Get request for
immutable data is answered from the data cache; the cached data is keyed
by the requested name. -/
def get_from_cache (st : RoutingNode) (routing_msg : RoutingMessage) :
    Option (XorName × Nat) :=
  match routing_msg.content with
  | .getImmutableData name =>
    match assocGet st.data_cache name with
    | some data => some (name, data)
    | none => none
  | _ => none

/-- add_to_cache (routing_node.rs lines 377-387): a successful immutable
data response is stored in the data cache under the data name. -/
def add_to_cache (st : RoutingNode) (routing_msg : RoutingMessage) :
    RoutingNode :=
  match routing_msg.content with
  | .getSuccessImmutableData name data =>
    { st with data_cache := (assocInsert st.data_cache name data).2 }
  | _ => st

/-- The observable calls the handlers make: send (routing_node.rs line
1392, parallel forwarding over the routing table), relay_to_client (line
1383) and handle_routing_message (line 390, local handling, dispatching
into accumulation and the request/response handlers). -/
inductive Effect where
  | send (msg : SignedMessage)
  | relayToClient (msg : SignedMessage)
  | handleLocally (content : RoutingMessage) (public_id : PublicId)
  deriving DecidableEq

/-- The Node-state continuation of handle_signed_message after the
swarm / direction checks (routing_node.rs lines 296-317 and 332): answer
from the cache if possible, otherwise cache any passing response, forward
a transit message not in our range, and otherwise handle it locally. -/
def node_after_checks (st : RoutingNode) (signed_msg : SignedMessage)
    (effects : List Effect) :
    Except RoutingError Unit × RoutingNode × List Effect :=
  match get_from_cache st signed_msg.content with
  | some nd =>
    let response_msg : RoutingMessage :=
      { src := .managedNode st.our_public_id.name,
        dst := signed_msg.content.src,
        content := .getSuccessImmutableData nd.1 nd.2 }
    (.ok (), st,
      effects ++ [.send { content := response_msg,
                          public_id := st.our_public_id,
                          integrity_ok := true }])
  | none =>
    let st := add_to_cache st signed_msg.content
    if !(st.is_close signed_msg.content.dst.get_name) then
      (.ok (), st, effects ++ [.send signed_msg])
    else
      (.ok (), st,
        effects ++ [.handleLocally signed_msg.content signed_msg.public_id])

/-- handle_signed_message (routing_node.rs lines 259-333): integrity
check, replay filter, then per-state swarm / direction / relay handling.
The result of signed_msg_security_check is discarded by the source (line
277) and therefore not modelled. -/
def handle_signed_message (st : RoutingNode) (signed_msg : SignedMessage)
    (hop_name : XorName) (connection : Nat) (now : Nat) :
    Except RoutingError Unit × RoutingNode × List Effect :=
  if !signed_msg.integrity_ok then (.error .failedSignature, st, [])
  else if filter_contains st.signed_message_filter signed_msg
      SIGNED_MESSAGE_FILTER_TTL now then
    (.error .filterCheckFailed, st, [])
  else
    let st := { st with
      signed_message_filter := filter_insert st.signed_message_filter signed_msg now }
    if st.state = State.node then
      let dst := signed_msg.content.dst
      if st.is_close dst.get_name then
        if dst.is_group then
          node_after_checks st signed_msg [.send signed_msg]
        else if st.our_public_id.name ≠ dst.get_name then
          (.ok (), st, [.send signed_msg])
        else
          match dst with
          | .client _ _ => (.ok (), st, [.relayToClient signed_msg])
          | _ => node_after_checks st signed_msg []
      else if !closer_to_target st.our_public_id.name hop_name dst.get_name then
        (.error .directionCheckFailed, st, [])
      else
        node_after_checks st signed_msg []
    else if st.state = State.client then
      match signed_msg.content.dst with
      | .client client_key _ =>
        if st.our_public_id.signing_public_key ≠ client_key then
          (.error .badAuthority, st, [])
        else
          (.ok (), st, [.handleLocally signed_msg.content signed_msg.public_id])
      | _ => (.error .badAuthority, st, [])
    else
      (.error .invalidStateForOperation, st, [])

/-- handle_expect_close_node_request (routing_node.rs lines 951-960): the
expected identity is inserted into the node-id cache first; if that
ejected a previous entry under the same name the handler reports
RejectedPublicId, with the replacement already done. -/
def handle_expect_close_node_request (st : RoutingNode)
    (expect_id : PublicId) : Except RoutingError Unit × RoutingNode :=
  let r := assocInsert st.node_id_cache expect_id.name expect_id
  let st' := { st with node_id_cache := r.2 }
  match r.1 with
  | some _ => (.error .rejectedPublicId, st')
  | none => (.ok (), st')

/-- Modelled from the spec: utils::calculate_relocated_name of the old
routing crate is not under src/ ("a seeded combination - e.g., hashing the
joining identity together with the ordered close-group identifiers"); the
hash stands for sha512 and is a function parameter shared by every honest
member. -/
def calculate_relocated_name (hash : List XorName → XorName)
    (close_group : List XorName) (their_name : XorName) : XorName :=
  hash (their_name :: close_group)

/-- handle_get_network_name_request (routing_node.rs lines 883-948):
validate that the client contacted the group matching the hash of its key,
compute the relocated name from the close group names with our own name
appended, and send the relocated identity back to the client and to the
close group of the relocated name.  hashPk stands for sha512 over the
client key (lines 889-890). -/
def handle_get_network_name_request (hash : List XorName → XorName)
    (hashPk : Nat → XorName) (st : RoutingNode) (their_public_id : PublicId)
    (client_key : Nat) (proxy_name : XorName) (dst_name : XorName) :
    Except RoutingError Unit × List Effect :=
  let close_group_to_client := hashPk client_key
  if close_group_to_client ≠ dst_name then (.error .invalidDestination, [])
  else
    let close_group := st.close_group_names ++ [st.our_public_id.name]
    let relocated_name :=
      calculate_relocated_name hash close_group their_public_id.name
    let relocated_id := { their_public_id with name := relocated_name }
    let response_msg : RoutingMessage :=
      { src := .naeManager dst_name,
        dst := .client client_key proxy_name,
        content := .getNetworkNameResponse relocated_id }
    let request_msg : RoutingMessage :=
      { src := .naeManager dst_name,
        dst := .nodeManager relocated_name,
        content := .expectCloseNode relocated_id }
    (.ok (),
      [.send { content := response_msg, public_id := st.our_public_id,
               integrity_ok := true },
       .send { content := request_msg, public_id := st.our_public_id,
               integrity_ok := true }])

/-- The relocated names carried by the messages a handler sent: the
projection compared across members for relocation determinism. -/
def relocated_names_in : List Effect → List XorName
  | [] => []
  | .send m :: rest =>
    (match m.content.content with
     | .getNetworkNameResponse id => [id.name]
     | .expectCloseNode id => [id.name]
     | _ => []) ++ relocated_names_in rest
  | _ :: rest => relocated_names_in rest

/-! ### Routing lemmas -/

theorem assocInsert_fst {α β : Type} [DecidableEq α] (l : List (α × β))
    (k : α) (v : β) : (assocInsert l k v).1 = assocGet l k := by
  induction l with
  | nil => rfl
  | cons hd tl ih =>
    obtain ⟨k0, v0⟩ := hd
    by_cases h : k0 = k <;> simp [assocInsert, assocGet, h, ih]

theorem assocGet_insert_self {α β : Type} [DecidableEq α] (l : List (α × β))
    (k : α) (v : β) : assocGet (assocInsert l k v).2 k = some v := by
  induction l with
  | nil => simp [assocInsert, assocGet]
  | cons hd tl ih =>
    obtain ⟨k0, v0⟩ := hd
    by_cases h : k0 = k <;> simp [assocInsert, assocGet, h, ih]

theorem add_to_cache_filter (st : RoutingNode) (c : RoutingMessage) :
    (add_to_cache st c).signed_message_filter = st.signed_message_filter := by
  unfold add_to_cache
  split <;> rfl

theorem node_after_checks_filter (st : RoutingNode) (m : SignedMessage)
    (effs : List Effect) :
    (node_after_checks st m effs).2.1.signed_message_filter
      = st.signed_message_filter := by
  unfold node_after_checks
  split
  · rfl
  · dsimp only
    split <;> simp [add_to_cache_filter]

theorem handle_filter_after (st : RoutingNode) (msg : SignedMessage)
    (hop conn now : Nat)
    (hint : msg.integrity_ok = true)
    (hfree : filter_contains st.signed_message_filter msg
      SIGNED_MESSAGE_FILTER_TTL now = false) :
    (handle_signed_message st msg hop conn now).2.1.signed_message_filter
      = filter_insert st.signed_message_filter msg now := by
  unfold handle_signed_message
  simp only [hint, hfree, Bool.not_true, Bool.false_eq_true, if_false]
  split
  · split
    · split
      · exact node_after_checks_filter _ _ _
      · split
        · rfl
        · split
          · rfl
          · exact node_after_checks_filter _ _ _
    · split
      · rfl
      · exact node_after_checks_filter _ _ _
  · split
    · split
      · split <;> rfl
      · rfl
    · rfl

theorem handle_when_filtered (st : RoutingNode) (msg : SignedMessage)
    (hop conn now : Nat)
    (hint : msg.integrity_ok = true)
    (hcont : filter_contains st.signed_message_filter msg
      SIGNED_MESSAGE_FILTER_TTL now = true) :
    handle_signed_message st msg hop conn now
      = (.error .filterCheckFailed, st, []) := by
  unfold handle_signed_message
  simp [hint, hcont]

theorem filter_contains_insert_self {α : Type} [DecidableEq α]
    (f : MessageFilter α) (x : α) (t now ttl : Nat) (h : now - t < ttl) :
    filter_contains (filter_insert f x t) x ttl now = true := by
  simp [filter_contains, filter_insert, h]

/-! ### Routing claim theorems -/

/-- C4: a signed message processed once (passing the integrity check, not
yet in the filter) and delivered again on any connection within the
filter TTL is rejected with FilterCheckFailed by the second call, with no
state change and no effects: it is neither forwarded nor handled locally. -/
theorem duplicate_delivery_rejected (st : RoutingNode) (msg : SignedMessage)
    (hop1 hop2 conn1 conn2 t1 t2 : Nat)
    (hint : msg.integrity_ok = true)
    (hfree : filter_contains st.signed_message_filter msg
      SIGNED_MESSAGE_FILTER_TTL t1 = false)
    (httl : t2 - t1 < SIGNED_MESSAGE_FILTER_TTL) :
    handle_signed_message (handle_signed_message st msg hop1 conn1 t1).2.1
        msg hop2 conn2 t2
      = (.error .filterCheckFailed,
         (handle_signed_message st msg hop1 conn1 t1).2.1, []) := by
  apply handle_when_filtered _ _ _ _ _ hint
  rw [handle_filter_after st msg hop1 conn1 t1 hint hfree]
  exact filter_contains_insert_self _ _ _ _ _ httl

/-- Witness for C4 at a concrete input: a message delivered at time 0 on
connection 1 and again at time 10 on connection 2 is rejected the second
time with no effects. -/
theorem duplicate_delivery_rejected_witness :
    handle_signed_message
        (handle_signed_message
          ⟨State.node, ⟨5, 7⟩, [], fun _ => true, [], [], []⟩
          ⟨⟨Authority.managedNode 1, Authority.managedNode 2,
            MsgContent.otherContent 0⟩, ⟨9, 3⟩, true⟩ 4 1 0).2.1
        ⟨⟨Authority.managedNode 1, Authority.managedNode 2,
          MsgContent.otherContent 0⟩, ⟨9, 3⟩, true⟩ 4 2 10
      = (.error .filterCheckFailed,
         (handle_signed_message
           ⟨State.node, ⟨5, 7⟩, [], fun _ => true, [], [], []⟩
           ⟨⟨Authority.managedNode 1, Authority.managedNode 2,
             MsgContent.otherContent 0⟩, ⟨9, 3⟩, true⟩ 4 1 0).2.1, []) :=
  duplicate_delivery_rejected
    ⟨State.node, ⟨5, 7⟩, [], fun _ => true, [], [], []⟩
    ⟨⟨Authority.managedNode 1, Authority.managedNode 2,
      MsgContent.otherContent 0⟩, ⟨9, 3⟩, true⟩ 4 4 1 2 0 10 rfl rfl
    (by decide)

/-- C7: in Node state, a message whose destination is not close to us and
for which our name is not closer to the destination than the relay hop is
rejected with DirectionCheckFailed and not forwarded (no effects). -/
theorem direction_check_failure_drops (st : RoutingNode) (msg : SignedMessage)
    (hop conn now : Nat)
    (hint : msg.integrity_ok = true)
    (hfree : filter_contains st.signed_message_filter msg
      SIGNED_MESSAGE_FILTER_TTL now = false)
    (hnode : st.state = State.node)
    (hfar : st.is_close msg.content.dst.get_name = false)
    (hdir : closer_to_target st.our_public_id.name hop
      msg.content.dst.get_name = false) :
    (handle_signed_message st msg hop conn now).1
        = .error .directionCheckFailed
    ∧ (handle_signed_message st msg hop conn now).2.2 = [] := by
  unfold handle_signed_message
  simp [hint, hfree, hnode, hfar, hdir]

/-- Witness for C7 at a concrete input: our name 5, hop 0, destination 2:
5 xor 2 = 7 is not smaller than 0 xor 2 = 2, so the message is dropped
with DirectionCheckFailed. -/
theorem direction_check_failure_drops_witness :
    (handle_signed_message
        ⟨State.node, ⟨5, 7⟩, [], fun _ => false, [], [], []⟩
        ⟨⟨Authority.managedNode 1, Authority.managedNode 2,
          MsgContent.otherContent 0⟩, ⟨9, 3⟩, true⟩ 0 1 0).1
      = .error .directionCheckFailed
    ∧ (handle_signed_message
        ⟨State.node, ⟨5, 7⟩, [], fun _ => false, [], [], []⟩
        ⟨⟨Authority.managedNode 1, Authority.managedNode 2,
          MsgContent.otherContent 0⟩, ⟨9, 3⟩, true⟩ 0 1 0).2.2 = [] :=
  direction_check_failure_drops
    ⟨State.node, ⟨5, 7⟩, [], fun _ => false, [], [], []⟩
    ⟨⟨Authority.managedNode 1, Authority.managedNode 2,
      MsgContent.otherContent 0⟩, ⟨9, 3⟩, true⟩ 0 1 0 rfl rfl rfl rfl
    (by decide)

/-- C10: handle_expect_close_node_request with a cached entry under the
expected name returns RejectedPublicId although the cache entry has
already been replaced by the new identity; with no prior entry it caches
the identity and returns Ok. -/
theorem expect_close_node_cache_replacement (st : RoutingNode)
    (expect_id : PublicId) :
    (∀ prev, assocGet st.node_id_cache expect_id.name = some prev →
      (handle_expect_close_node_request st expect_id).1
          = .error .rejectedPublicId
      ∧ assocGet (handle_expect_close_node_request st expect_id).2.node_id_cache
          expect_id.name = some expect_id)
    ∧ (assocGet st.node_id_cache expect_id.name = none →
      (handle_expect_close_node_request st expect_id).1 = .ok ()
      ∧ assocGet (handle_expect_close_node_request st expect_id).2.node_id_cache
          expect_id.name = some expect_id) := by
  have hins : (assocInsert st.node_id_cache expect_id.name expect_id).1
      = assocGet st.node_id_cache expect_id.name := assocInsert_fst _ _ _
  constructor
  · intro prev hprev
    rw [hprev] at hins
    simp only [handle_expect_close_node_request, hins]
    exact ⟨trivial, assocGet_insert_self _ _ _⟩
  · intro hnone
    rw [hnone] at hins
    simp only [handle_expect_close_node_request, hins]
    exact ⟨trivial, assocGet_insert_self _ _ _⟩

/-- Witness for C10 at concrete inputs: with identity ⟨4, 8⟩ cached under
name 4, expecting identity ⟨4, 9⟩ errors with RejectedPublicId yet leaves
⟨4, 9⟩ in the cache; with an empty cache the same identity is cached under
Ok. -/
theorem expect_close_node_cache_replacement_witness :
    ((handle_expect_close_node_request
        ⟨State.node, ⟨0, 0⟩, [], fun _ => false, [], [(4, ⟨4, 8⟩)], []⟩
        ⟨4, 9⟩).1 = .error .rejectedPublicId
      ∧ assocGet (handle_expect_close_node_request
          ⟨State.node, ⟨0, 0⟩, [], fun _ => false, [], [(4, ⟨4, 8⟩)], []⟩
          ⟨4, 9⟩).2.node_id_cache 4 = some ⟨4, 9⟩)
    ∧ ((handle_expect_close_node_request
        ⟨State.node, ⟨0, 0⟩, [], fun _ => false, [], [], []⟩
        ⟨4, 9⟩).1 = .ok ()
      ∧ assocGet (handle_expect_close_node_request
          ⟨State.node, ⟨0, 0⟩, [], fun _ => false, [], [], []⟩
          ⟨4, 9⟩).2.node_id_cache 4 = some ⟨4, 9⟩) :=
  ⟨(expect_close_node_cache_replacement
      ⟨State.node, ⟨0, 0⟩, [], fun _ => false, [], [(4, ⟨4, 8⟩)], []⟩
      ⟨4, 9⟩).1 ⟨4, 8⟩ rfl,
   (expect_close_node_cache_replacement
      ⟨State.node, ⟨0, 0⟩, [], fun _ => false, [], [], []⟩
      ⟨4, 9⟩).2 rfl⟩

/-- C8: relocated-name determinism: two executions of
handle_get_network_name_request with the same joining identity, the same
request parameters and the same ordered close-group snapshot (close group
names with the executing member's own name appended, as the source builds
it) emit the same relocated name, whatever else differs between the two
member states. -/
theorem relocated_name_deterministic (hash : List XorName → XorName)
    (hashPk : Nat → XorName) (st1 st2 : RoutingNode)
    (their_public_id : PublicId) (client_key : Nat)
    (proxy_name dst_name : XorName)
    (hsnap : st1.close_group_names ++ [st1.our_public_id.name]
        = st2.close_group_names ++ [st2.our_public_id.name]) :
    relocated_names_in (handle_get_network_name_request hash hashPk st1
        their_public_id client_key proxy_name dst_name).2
      = relocated_names_in (handle_get_network_name_request hash hashPk st2
        their_public_id client_key proxy_name dst_name).2 := by
  by_cases hdst : hashPk client_key = dst_name
  · simp [handle_get_network_name_request, hdst, relocated_names_in,
      calculate_relocated_name, hsnap]
  · simp [handle_get_network_name_request, hdst, relocated_names_in]

/-- Witness for C8 at concrete inputs: two members that differ in state,
signing key, closeness test and caches but share the ordered close-group
snapshot [1, 2, 3] compute identical relocated names for joining identity
⟨6, 4⟩. -/
theorem relocated_name_deterministic_witness :
    relocated_names_in (handle_get_network_name_request
        (fun l => l.foldl (fun a b => 31 * a + b) 7) (fun k => k)
        ⟨State.node, ⟨3, 10⟩, [], fun _ => false, [], [], [1, 2]⟩
        ⟨6, 4⟩ 4 11 4).2
      = relocated_names_in (handle_get_network_name_request
        (fun l => l.foldl (fun a b => 31 * a + b) 7) (fun k => k)
        ⟨State.client, ⟨3, 99⟩, [], fun _ => true, [(0, 0)], [], [1, 2]⟩
        ⟨6, 4⟩ 4 11 4).2 :=
  relocated_name_deterministic
    (fun l => l.foldl (fun a b => 31 * a + b) 7) (fun k => k)
    ⟨State.node, ⟨3, 10⟩, [], fun _ => false, [], [], [1, 2]⟩
    ⟨State.client, ⟨3, 99⟩, [], fun _ => true, [(0, 0)], [], [1, 2]⟩
    ⟨6, 4⟩ 4 11 4 rfl
